import Mathlib

/-!
Verification of the CSS-selector builder, rectangle and JSON helpers of
`src/06-objects-tasks.js` against its specification.

The JavaScript code is shallowly embedded as follows.

Selector objects produced by the builder form prototype chains
(`Object.create`); after creation an object is never assigned to again, so a
chain is fully described by its *resolved view*: for every property, the value
found at the nearest object of the chain that owns it.  The structure `Sel`
below is that resolved view.  The only mutable state in the code is the
JavaScript arrays held in the `elClass`, `elAttrs` and `elPseudoClass`
properties: `Array.prototype.push` mutates them in place and they are shared
along prototype chains.  They are therefore modelled as references (indices)
into an explicit `Store` of arrays, threaded through every operation.

JavaScript truthiness is modelled faithfully: a string-valued property is
truthy when it holds a non-empty string (`truthyStr`); an array-valued
property is truthy whenever the array exists, even when empty (`Option.isSome`
on the reference).

The `prot` property of `CssSelectorBuilder` instances holds the method table
created in the constructor.  The method `element` builds its result with
`Object.create(this.prot)`; that `prot` lookup yields the method table only
when the receiver's chain still reaches the original instance, and `undefined`
(so a `TypeError` from `Object.create`) once the chain was restarted by a
previous `element` call, whose result's prototype is the method table itself,
which owns no `prot` key.  The boolean `protIsObj` records whether the `prot`
lookup on the receiver yields an object.

Failures are values of `JsError`: `duplicateError` stands for the thrown
`Error` whose message says element, id and pseudo-element should occur at most
once, `orderError` for the thrown `Error` whose message names the required
order, and `typeError` for the `Object.create(undefined)` failure described
above.
-/

/-- A mutable heap of JavaScript arrays of strings; `Sel` fields hold indices
into it. -/
structure Store where
  arrays : List (List String)
deriving DecidableEq

/-- The empty heap: no arrays exist before any builder call. -/
def emptyStore : Store := ⟨[]⟩

/-- Allocation of a fresh array (the `obj.elClass = [value]` branches):
returns the reference to the new array and the extended heap. -/
def Store.alloc (st : Store) (l : List String) : Nat × Store :=
  (st.arrays.length, ⟨st.arrays ++ [l]⟩)

/-- In-place `Array.prototype.push`: the array at reference `r` grows by one
element, every other array is untouched. -/
def Store.push (st : Store) (r : Nat) (v : String) : Store :=
  ⟨st.arrays.set r ((st.arrays.getD r []) ++ [v])⟩

/-- Reading the array behind a reference. -/
def lookupArr (st : Store) (r : Nat) : List String :=
  st.arrays.getD r []

/-- Resolved view of a selector object's prototype chain: for each of the six
data properties, the value owned by the nearest object of the chain
(`none` when no object of the chain owns it, i.e. `undefined`). -/
structure Sel where
  el : Option String := none
  elID : Option String := none
  elClass : Option Nat := none
  elAttrs : Option Nat := none
  elPseudoClass : Option Nat := none
  elPseudoElement : Option String := none
  protIsObj : Bool := false
deriving DecidableEq

/-- JavaScript truthiness of a possibly-undefined string property: truthy
exactly when it holds a non-empty string. -/
def truthyStr : Option String → Bool
  | some v => v != ""
  | none => false

/-- The two `Error` messages thrown by the builder, and the `TypeError` that
`Object.create(this.prot)` raises when `prot` resolves to `undefined`. -/
inductive JsError where
  | duplicateError
  | orderError
  | typeError
deriving DecidableEq

deriving instance DecidableEq for Except

/-- The exported singleton `cssSelectorBuilder = new CssSelectorBuilder()`:
no data property is set, and its own `prot` property holds the method
table built in the constructor. -/
def cssSelectorBuilderSel : Sel := { protIsObj := true }

namespace CssSelectorBuilder

/-- Translation of `CssSelectorBuilder.element`: duplicate check on `el`,
order check on the five later properties, then
`Object.create(this.prot)` (all-fresh object) with own `el = value`. -/
def element (s : Sel) (st : Store) (value : String) :
    Except JsError (Sel × Store) :=
  if truthyStr s.el then .error .duplicateError
  else if truthyStr s.elID || s.elAttrs.isSome || s.elClass.isSome
      || s.elPseudoClass.isSome || truthyStr s.elPseudoElement then
    .error .orderError
  else if s.protIsObj then
    .ok ({ el := some value }, st)
  else .error .typeError

/-- Translation of `CssSelectorBuilder.id`: duplicate check on `elID`, order
check, then `Object.create(this)` with own `elID = value`. -/
def id (s : Sel) (st : Store) (value : String) :
    Except JsError (Sel × Store) :=
  if truthyStr s.elID then .error .duplicateError
  else if s.elAttrs.isSome || s.elClass.isSome || s.elPseudoClass.isSome
      || truthyStr s.elPseudoElement then
    .error .orderError
  else .ok ({ s with elID := some value }, st)

/-- Translation of `CssSelectorBuilder.class`: order check, then
`Object.create(this)`; when a class array is reachable it is pushed to
(mutating the shared array), otherwise a fresh one-element array is
created as the new object's own property. -/
def «class» (s : Sel) (st : Store) (value : String) :
    Except JsError (Sel × Store) :=
  if s.elAttrs.isSome || s.elPseudoClass.isSome || truthyStr s.elPseudoElement then
    .error .orderError
  else
    match s.elClass with
    | some r => .ok (s, st.push r value)
    | none =>
      let a := st.alloc [value]
      .ok ({ s with elClass := some a.1 }, a.2)

/-- Translation of `CssSelectorBuilder.attr`: order check, then push to the
shared attribute array or creation of a fresh one. -/
def attr (s : Sel) (st : Store) (value : String) :
    Except JsError (Sel × Store) :=
  if s.elPseudoClass.isSome || truthyStr s.elPseudoElement then
    .error .orderError
  else
    match s.elAttrs with
    | some r => .ok (s, st.push r value)
    | none =>
      let a := st.alloc [value]
      .ok ({ s with elAttrs := some a.1 }, a.2)

/-- Translation of `CssSelectorBuilder.pseudoClass`: order check, then push to
the shared pseudo-class array or creation of a fresh one. -/
def pseudoClass (s : Sel) (st : Store) (value : String) :
    Except JsError (Sel × Store) :=
  if truthyStr s.elPseudoElement then
    .error .orderError
  else
    match s.elPseudoClass with
    | some r => .ok (s, st.push r value)
    | none =>
      let a := st.alloc [value]
      .ok ({ s with elPseudoClass := some a.1 }, a.2)

/-- Translation of `CssSelectorBuilder.pseudoElement`: duplicate check, then
`Object.create(this)` with own `elPseudoElement = value`. -/
def pseudoElement (s : Sel) (st : Store) (value : String) :
    Except JsError (Sel × Store) :=
  if truthyStr s.elPseudoElement then .error .duplicateError
  else .ok ({ s with elPseudoElement := some value }, st)

end CssSelectorBuilder

/-- Statement `if (this.el) resultStr = resultStr.concat(this.el)` of the
source `stringify`, as a transformer of the accumulator `resultStr`. -/
def stepEl (s : Sel) (r : String) : String :=
  if truthyStr s.el then r ++ s.el.getD "" else r

/-- Statement `if (this.elID) resultStr = resultStr.concat('#')...` of the
source `stringify`. -/
def stepId (s : Sel) (r : String) : String :=
  if truthyStr s.elID then r ++ "#" ++ s.elID.getD "" else r

/-- The guarded `forEach` over `this.elClass` of the source `stringify`. -/
def stepClasses (s : Sel) (st : Store) (r : String) : String :=
  match s.elClass with
  | some ref =>
    let l := lookupArr st ref
    if l.length ≠ 0 then l.foldl (fun acc c => acc ++ "." ++ c) r else r
  | none => r

/-- The guarded attribute block of the source `stringify`: only
`this.elAttrs[0]`, wrapped in square brackets. -/
def stepAttr (s : Sel) (st : Store) (r : String) : String :=
  match s.elAttrs with
  | some ref =>
    let l := lookupArr st ref
    if l.length ≠ 0 then r ++ "[" ++ l.headD "" ++ "]" else r
  | none => r

/-- The guarded `forEach` over `this.elPseudoClass` of the source
`stringify`. -/
def stepPseudoClasses (s : Sel) (st : Store) (r : String) : String :=
  match s.elPseudoClass with
  | some ref =>
    let l := lookupArr st ref
    if l.length ≠ 0 then l.foldl (fun acc c => acc ++ ":" ++ c) r else r
  | none => r

/-- Statement `if (this.elPseudoElement) ...` of the source `stringify`. -/
def stepPE (s : Sel) (r : String) : String :=
  if truthyStr s.elPseudoElement then r ++ "::" ++ s.elPseudoElement.getD ""
  else r

/-- Translation of `CssSelectorBuilder.stringify` restricted to a simple
selector object (one with no `combined` property): the statements of the
source run in order, each updating the accumulator `resultStr`, which
starts as the empty string. -/
def renderSel (s : Sel) (st : Store) : String :=
  stepPE s (stepPseudoClasses s st (stepAttr s st (stepClasses s st
    (stepId s (stepEl s "")))))

/-- A selector value: either a simple selector object or the object literal
returned by `combine`, which stores the precomputed `combined` string
together with its two children. -/
inductive Selector where
  | simple (s : Sel)
  | combinedSel (combined : String) (selectors1 selectors2 : Selector)
deriving DecidableEq

/-- Translation of `CssSelectorBuilder.stringify`: a combined object returns
its truthy precomputed string (an empty `combined` would fall through to
the property walk, which finds nothing on a combined object and yields
the empty string as well); a simple object runs the property walk. -/
def stringify (sel : Selector) (st : Store) : String :=
  match sel with
  | .combinedSel combined _ _ => if combined ≠ "" then combined else ""
  | .simple s => renderSel s st

/-- Translation of `CssSelectorBuilder.combine`: stringifies both children in
the current heap and stores their joining with the combinator padded by
single spaces; no check is made on the combinator. -/
def CssSelectorBuilder.combine (selectors1 : Selector) (combinator : String)
    (selectors2 : Selector) (st : Store) : Selector :=
  let comb := " " ++ combinator ++ " "
  let s1 := stringify selectors1 st
  let s2 := stringify selectors2 st
  .combinedSel (s1 ++ comb ++ s2) selectors1 selectors2

/-- Joining a list of string pieces, each behind the prefix `p`, starting from
the empty string; the closed form of the `forEach` loops of `stringify`. -/
def prefJoin (p : String) (l : List String) : String :=
  l.foldl (fun acc c => acc ++ p ++ c) ""

/-- Specification-side rendering of the element position: the element when
set, nothing otherwise. -/
def selPartEl (s : Sel) : String :=
  if truthyStr s.el then s.el.getD "" else ""

/-- Specification-side rendering of the id position. -/
def selPartId (s : Sel) : String :=
  if truthyStr s.elID then "#" ++ s.elID.getD "" else ""

/-- Specification-side rendering of the class position: every class in append
order, each prefixed with a dot. -/
def selPartClasses (s : Sel) (st : Store) : String :=
  match s.elClass with
  | some r => prefJoin "." (lookupArr st r)
  | none => ""

/-- Specification-side rendering of the attribute position: only the first
appended attribute, wrapped in square brackets. -/
def selPartAttr (s : Sel) (st : Store) : String :=
  match s.elAttrs with
  | some r =>
    if (lookupArr st r).length ≠ 0 then "[" ++ (lookupArr st r).headD "" ++ "]"
    else ""
  | none => ""

/-- Specification-side rendering of the pseudo-class position: every
pseudo-class in append order, each prefixed with a colon. -/
def selPartPseudoClasses (s : Sel) (st : Store) : String :=
  match s.elPseudoClass with
  | some r => prefJoin ":" (lookupArr st r)
  | none => ""

/-- Specification-side rendering of the pseudo-element position. -/
def selPartPE (s : Sel) : String :=
  if truthyStr s.elPseudoElement then "::" ++ s.elPseudoElement.getD "" else ""

/-- Folding string pieces behind a prefix distributes over the seed. -/
theorem foldl_pref (p : String) (l : List String) (x y : String) :
    l.foldl (fun acc c => acc ++ p ++ c) (x ++ y)
      = x ++ l.foldl (fun acc c => acc ++ p ++ c) y := by
  induction l generalizing y with
  | nil => rfl
  | cons c cs ih =>
    simp only [List.foldl_cons]
    rw [String.append_assoc x y p, String.append_assoc x (y ++ p) c, ih]

/-- The `forEach` loops of `stringify` compute the seed followed by the
prefix-join of the list. -/
theorem foldl_seed (p : String) (l : List String) (x : String) :
    l.foldl (fun acc c => acc ++ p ++ c) x = x ++ prefJoin p l := by
  have := foldl_pref p l x ""
  rwa [String.append_empty] at this

/-- Prefix-joining the empty list gives the empty string. -/
theorem prefJoin_nil (p : String) : prefJoin p [] = "" := rfl

/-- Prefix-joining a one-element-longer list appends one more piece. -/
theorem prefJoin_append_one (p : String) (l : List String) (v : String) :
    prefJoin p (l ++ [v]) = prefJoin p l ++ p ++ v := by
  unfold prefJoin
  rw [List.foldl_append]
  simp only [List.foldl_cons, List.foldl_nil]

/-- The element statement appends the element position to the accumulator. -/
theorem stepEl_eq (s : Sel) (r : String) : stepEl s r = r ++ selPartEl s := by
  unfold stepEl selPartEl
  split
  · rfl
  · rw [String.append_empty]

/-- The id statement appends the id position to the accumulator. -/
theorem stepId_eq (s : Sel) (r : String) : stepId s r = r ++ selPartId s := by
  unfold stepId selPartId
  split
  · rw [String.append_assoc]
  · rw [String.append_empty]

/-- The class loop appends the class position to the accumulator. -/
theorem stepClasses_eq (s : Sel) (st : Store) (r : String) :
    stepClasses s st r = r ++ selPartClasses s st := by
  unfold stepClasses selPartClasses
  cases s.elClass with
  | none => exact (String.append_empty r).symm
  | some ref =>
    dsimp only
    split
    · exact foldl_seed _ _ _
    · next h =>
      have hl : lookupArr st ref = [] := by
        rcases List.length_eq_zero.mp (by omega : (lookupArr st ref).length = 0)
          with h2
        exact h2
      rw [hl, prefJoin_nil, String.append_empty]

/-- The attribute block appends the attribute position to the accumulator. -/
theorem stepAttr_eq (s : Sel) (st : Store) (r : String) :
    stepAttr s st r = r ++ selPartAttr s st := by
  unfold stepAttr selPartAttr
  cases s.elAttrs with
  | none => exact (String.append_empty r).symm
  | some ref =>
    dsimp only
    split
    · simp [String.append_assoc]
    · rw [String.append_empty]

/-- The pseudo-class loop appends the pseudo-class position to the
accumulator. -/
theorem stepPseudoClasses_eq (s : Sel) (st : Store) (r : String) :
    stepPseudoClasses s st r = r ++ selPartPseudoClasses s st := by
  unfold stepPseudoClasses selPartPseudoClasses
  cases s.elPseudoClass with
  | none => exact (String.append_empty r).symm
  | some ref =>
    dsimp only
    split
    · exact foldl_seed _ _ _
    · next h =>
      have hl : lookupArr st ref = [] :=
        List.length_eq_zero.mp (by omega : (lookupArr st ref).length = 0)
      rw [hl, prefJoin_nil, String.append_empty]

/-- The pseudo-element statement appends the pseudo-element position to the
accumulator. -/
theorem stepPE_eq (s : Sel) (r : String) : stepPE s r = r ++ selPartPE s := by
  unfold stepPE selPartPE
  split
  · rw [String.append_assoc]
  · rw [String.append_empty]

/-- The sequential accumulation of the source `stringify` agrees with the
position-by-position concatenation of the specification. -/
theorem renderSel_eq_parts (s : Sel) (st : Store) :
    renderSel s st
      = selPartEl s ++ selPartId s ++ selPartClasses s st ++ selPartAttr s st
        ++ selPartPseudoClasses s st ++ selPartPE s := by
  unfold renderSel
  rw [stepEl_eq, String.empty_append, stepId_eq, stepClasses_eq, stepAttr_eq,
    stepPseudoClasses_eq, stepPE_eq]

/-- Pushing never changes the number of arrays in the heap. -/
theorem length_push (st : Store) (r : Nat) (v : String) :
    (st.push r v).arrays.length = st.arrays.length := by
  unfold Store.push
  exact List.length_set ..

/-- Allocation adds exactly one array to the heap. -/
theorem length_alloc (st : Store) (l : List String) :
    (st.alloc l).2.arrays.length = st.arrays.length + 1 := by
  unfold Store.alloc
  simp

/-- Pushing to one array leaves every other array unchanged. -/
theorem lookupArr_push_ne (st : Store) (r r' : Nat) (v : String) (h : r ≠ r') :
    lookupArr (st.push r' v) r = lookupArr st r := by
  unfold lookupArr Store.push
  simp only [List.getD_eq_getElem?_getD]
  rw [List.getElem?_set_ne (Ne.symm h)]

/-- Pushing appends the value at the end of the addressed array. -/
theorem lookupArr_push_self (st : Store) (r : Nat) (v : String)
    (h : r < st.arrays.length) :
    lookupArr (st.push r v) r = lookupArr st r ++ [v] := by
  unfold lookupArr Store.push
  rw [List.getD_eq_getElem?_getD, List.getD_eq_getElem?_getD]
  simp [List.getElem?_set_self, h, List.getD_eq_getElem?_getD]

/-- Allocation leaves every existing array unchanged. -/
theorem lookupArr_alloc_lt (st : Store) (l : List String) (r : Nat)
    (h : r < st.arrays.length) :
    lookupArr (st.alloc l).2 r = lookupArr st r := by
  unfold lookupArr Store.alloc
  rw [List.getD_eq_getElem?_getD, List.getD_eq_getElem?_getD,
    List.getElem?_append_left h]

/-- The fresh array produced by an allocation holds exactly the initial
list. -/
theorem lookupArr_alloc_self (st : Store) (l : List String) :
    lookupArr (st.alloc l).2 st.arrays.length = l := by
  unfold lookupArr Store.alloc
  rw [List.getD_eq_getElem?_getD]
  simp

/-- Boolean bound check for a possibly-absent array reference. -/
def refOk (st : Store) : Option Nat → Bool
  | some r => decide (r < st.arrays.length)
  | none => true

/-- Boolean distinctness of two possibly-absent array references. -/
def neRef : Option Nat → Option Nat → Bool
  | some a, some b => a != b
  | _, _ => true

/-- Well-formedness of a selector object with respect to the heap: its array
references are in bounds and pairwise distinct.  Every selector value
reachable from `cssSelectorBuilder` satisfies it (`builders_wf`). -/
def SelWF (s : Sel) (st : Store) : Bool :=
  refOk st s.elClass && refOk st s.elAttrs && refOk st s.elPseudoClass
    && neRef s.elClass s.elAttrs && neRef s.elClass s.elPseudoClass
    && neRef s.elAttrs s.elPseudoClass

/-- Propositional in-bounds reading of `refOk`. -/
def RefOkP (st : Store) (o : Option Nat) : Prop :=
  ∀ r, o = some r → r < st.arrays.length

/-- Propositional distinctness reading of `neRef`. -/
def NeRefP (a b : Option Nat) : Prop :=
  ∀ x y, a = some x → b = some y → x ≠ y

/-- The Boolean well-formedness check unfolds to the six propositional
conditions. -/
theorem selWF_iff (s : Sel) (st : Store) :
    SelWF s st = true ↔
      RefOkP st s.elClass ∧ RefOkP st s.elAttrs ∧ RefOkP st s.elPseudoClass
        ∧ NeRefP s.elClass s.elAttrs ∧ NeRefP s.elClass s.elPseudoClass
        ∧ NeRefP s.elAttrs s.elPseudoClass := by
  unfold SelWF refOk neRef RefOkP NeRefP
  cases s.elClass <;> cases s.elAttrs <;> cases s.elPseudoClass <;>
    simp [Bool.and_eq_true, decide_eq_true_eq, bne_iff_ne, and_assoc]

/-- The class position only depends on the heap through the class
reference. -/
theorem selPartClasses_congr (s : Sel) (st st2 : Store)
    (h : ∀ r, s.elClass = some r → lookupArr st2 r = lookupArr st r) :
    selPartClasses s st2 = selPartClasses s st := by
  unfold selPartClasses
  cases hc : s.elClass with
  | none => rfl
  | some r =>
    dsimp only
    rw [h r hc]

/-- The attribute position only depends on the heap through the attribute
reference. -/
theorem selPartAttr_congr (s : Sel) (st st2 : Store)
    (h : ∀ r, s.elAttrs = some r → lookupArr st2 r = lookupArr st r) :
    selPartAttr s st2 = selPartAttr s st := by
  unfold selPartAttr
  cases hc : s.elAttrs with
  | none => rfl
  | some r =>
    dsimp only
    rw [h r hc]

/-- The pseudo-class position only depends on the heap through the
pseudo-class reference. -/
theorem selPartPseudoClasses_congr (s : Sel) (st st2 : Store)
    (h : ∀ r, s.elPseudoClass = some r → lookupArr st2 r = lookupArr st r) :
    selPartPseudoClasses s st2 = selPartPseudoClasses s st := by
  unfold selPartPseudoClasses
  cases hc : s.elPseudoClass with
  | none => rfl
  | some r =>
    dsimp only
    rw [h r hc]

/-- A selector's rendering is unchanged by any heap change that preserves the
arrays behind its three references. -/
theorem renderSel_store_congr (s : Sel) (st st2 : Store)
    (hc : ∀ r, s.elClass = some r → lookupArr st2 r = lookupArr st r)
    (ha : ∀ r, s.elAttrs = some r → lookupArr st2 r = lookupArr st r)
    (hp : ∀ r, s.elPseudoClass = some r → lookupArr st2 r = lookupArr st r) :
    renderSel s st2 = renderSel s st := by
  rw [renderSel_eq_parts, renderSel_eq_parts, selPartClasses_congr s st st2 hc,
    selPartAttr_congr s st st2 ha, selPartPseudoClasses_congr s st st2 hp]

/-- A well-formed selector renders identically after any allocation: the fresh
array sits beyond all of its references. -/
theorem renderSel_alloc (s : Sel) (st : Store) (l : List String)
    (hwf : SelWF s st = true) :
    renderSel s (st.alloc l).2 = renderSel s st := by
  obtain ⟨hc, ha, hp, _⟩ := (selWF_iff s st).mp hwf
  exact renderSel_store_congr s st _
    (fun r hr => lookupArr_alloc_lt st l r (hc r hr))
    (fun r hr => lookupArr_alloc_lt st l r (ha r hr))
    (fun r hr => lookupArr_alloc_lt st l r (hp r hr))

/-- Successful `element` calls do not touch the heap, and their result is the
fresh object owning only `el`. -/
theorem element_ok_elim (s : Sel) (st : Store) (v : String) (s' : Sel)
    (st' : Store) (h : CssSelectorBuilder.element s st v = .ok (s', st')) :
    st' = st ∧ s' = { el := some v } := by
  unfold CssSelectorBuilder.element at h
  split at h
  · exact absurd h (by simp)
  · split at h
    · exact absurd h (by simp)
    · split at h
      · simp only [Except.ok.injEq, Prod.mk.injEq] at h
        exact ⟨h.2.symm, h.1.symm⟩
      · exact absurd h (by simp)

/-- Successful `id` calls do not touch the heap; the result only adds
`elID`. -/
theorem id_ok_elim (s : Sel) (st : Store) (v : String) (s' : Sel)
    (st' : Store) (h : CssSelectorBuilder.id s st v = .ok (s', st')) :
    st' = st ∧ s' = { s with elID := some v } := by
  unfold CssSelectorBuilder.id at h
  split at h
  · exact absurd h (by simp)
  · split at h
    · exact absurd h (by simp)
    · simp only [Except.ok.injEq, Prod.mk.injEq] at h
      exact ⟨h.2.symm, h.1.symm⟩

/-- Successful `pseudoElement` calls do not touch the heap; the result only
adds `elPseudoElement`. -/
theorem pseudoElement_ok_elim (s : Sel) (st : Store) (v : String) (s' : Sel)
    (st' : Store)
    (h : CssSelectorBuilder.pseudoElement s st v = .ok (s', st')) :
    st' = st ∧ s' = { s with elPseudoElement := some v } := by
  unfold CssSelectorBuilder.pseudoElement at h
  split at h
  · exact absurd h (by simp)
  · simp only [Except.ok.injEq, Prod.mk.injEq] at h
    exact ⟨h.2.symm, h.1.symm⟩

/-- Successful `class` calls either push to the shared class array (receiver
and result identical) or allocate a fresh array for the result. -/
theorem class_ok_elim (s : Sel) (st : Store) (v : String) (s' : Sel)
    (st' : Store) (h : CssSelectorBuilder.class s st v = .ok (s', st')) :
    (∃ r, s.elClass = some r ∧ s' = s ∧ st' = st.push r v)
      ∨ (s.elClass = none ∧ s' = { s with elClass := some st.arrays.length }
          ∧ st' = (st.alloc [v]).2) := by
  unfold CssSelectorBuilder.class at h
  split at h
  · exact absurd h (by simp)
  · cases hc : s.elClass with
    | some r =>
      rw [hc] at h
      simp only [Except.ok.injEq, Prod.mk.injEq] at h
      exact Or.inl ⟨r, rfl, h.1.symm, h.2.symm⟩
    | none =>
      rw [hc] at h
      simp only [Except.ok.injEq, Prod.mk.injEq] at h
      exact Or.inr ⟨rfl, h.1.symm, h.2.symm⟩

/-- Successful `attr` calls either push to the shared attribute array or
allocate a fresh array for the result. -/
theorem attr_ok_elim (s : Sel) (st : Store) (v : String) (s' : Sel)
    (st' : Store) (h : CssSelectorBuilder.attr s st v = .ok (s', st')) :
    (∃ r, s.elAttrs = some r ∧ s' = s ∧ st' = st.push r v)
      ∨ (s.elAttrs = none ∧ s' = { s with elAttrs := some st.arrays.length }
          ∧ st' = (st.alloc [v]).2) := by
  unfold CssSelectorBuilder.attr at h
  split at h
  · exact absurd h (by simp)
  · cases hc : s.elAttrs with
    | some r =>
      rw [hc] at h
      simp only [Except.ok.injEq, Prod.mk.injEq] at h
      exact Or.inl ⟨r, rfl, h.1.symm, h.2.symm⟩
    | none =>
      rw [hc] at h
      simp only [Except.ok.injEq, Prod.mk.injEq] at h
      exact Or.inr ⟨rfl, h.1.symm, h.2.symm⟩

/-- Successful `pseudoClass` calls either push to the shared pseudo-class
array or allocate a fresh array for the result. -/
theorem pseudoClass_ok_elim (s : Sel) (st : Store) (v : String) (s' : Sel)
    (st' : Store) (h : CssSelectorBuilder.pseudoClass s st v = .ok (s', st')) :
    (∃ r, s.elPseudoClass = some r ∧ s' = s ∧ st' = st.push r v)
      ∨ (s.elPseudoClass = none
          ∧ s' = { s with elPseudoClass := some st.arrays.length }
          ∧ st' = (st.alloc [v]).2) := by
  unfold CssSelectorBuilder.pseudoClass at h
  split at h
  · exact absurd h (by simp)
  · cases hc : s.elPseudoClass with
    | some r =>
      rw [hc] at h
      simp only [Except.ok.injEq, Prod.mk.injEq] at h
      exact Or.inl ⟨r, rfl, h.1.symm, h.2.symm⟩
    | none =>
      rw [hc] at h
      simp only [Except.ok.injEq, Prod.mk.injEq] at h
      exact Or.inr ⟨rfl, h.1.symm, h.2.symm⟩

/-- Well-formedness survives any heap transformation that does not shrink the
number of arrays. -/
theorem selWF_mono (s : Sel) (st st2 : Store)
    (hl : st.arrays.length ≤ st2.arrays.length) (hwf : SelWF s st = true) :
    SelWF s st2 = true := by
  obtain ⟨hc, ha, hp, hd1, hd2, hd3⟩ := (selWF_iff s st).mp hwf
  refine (selWF_iff s st2).mpr
    ⟨fun r hr => lt_of_lt_of_le (hc r hr) hl,
     fun r hr => lt_of_lt_of_le (ha r hr) hl,
     fun r hr => lt_of_lt_of_le (hp r hr) hl, hd1, hd2, hd3⟩

/-- All selector objects alive after some sequence of builder calls starting
from the exported singleton, together with the current heap: every step
applies one builder method to any live object and keeps the older objects
alive. -/
inductive Builders : List Sel → Store → Prop where
  | init : Builders [cssSelectorBuilderSel] emptyStore
  | stepElement (live : List Sel) (st : Store) (s : Sel) (v : String)
      (s' : Sel) (st' : Store) (hb : Builders live st) (hs : s ∈ live)
      (h : CssSelectorBuilder.element s st v = .ok (s', st')) :
      Builders (s' :: live) st'
  | stepId (live : List Sel) (st : Store) (s : Sel) (v : String)
      (s' : Sel) (st' : Store) (hb : Builders live st) (hs : s ∈ live)
      (h : CssSelectorBuilder.id s st v = .ok (s', st')) :
      Builders (s' :: live) st'
  | stepClass (live : List Sel) (st : Store) (s : Sel) (v : String)
      (s' : Sel) (st' : Store) (hb : Builders live st) (hs : s ∈ live)
      (h : CssSelectorBuilder.class s st v = .ok (s', st')) :
      Builders (s' :: live) st'
  | stepAttr (live : List Sel) (st : Store) (s : Sel) (v : String)
      (s' : Sel) (st' : Store) (hb : Builders live st) (hs : s ∈ live)
      (h : CssSelectorBuilder.attr s st v = .ok (s', st')) :
      Builders (s' :: live) st'
  | stepPseudoClass (live : List Sel) (st : Store) (s : Sel) (v : String)
      (s' : Sel) (st' : Store) (hb : Builders live st) (hs : s ∈ live)
      (h : CssSelectorBuilder.pseudoClass s st v = .ok (s', st')) :
      Builders (s' :: live) st'
  | stepPseudoElement (live : List Sel) (st : Store) (s : Sel) (v : String)
      (s' : Sel) (st' : Store) (hb : Builders live st) (hs : s ∈ live)
      (h : CssSelectorBuilder.pseudoElement s st v = .ok (s', st')) :
      Builders (s' :: live) st'

/-- A selector whose three references are in bounds stays well formed when one
field acquires the reference to a freshly allocated array. -/
theorem selWF_fresh (s : Sel) (st : Store) (hwf : SelWF s st = true)
    (s2 : Sel) (st2 : Store)
    (hlen : st2.arrays.length = st.arrays.length + 1)
    (hcl : s2.elClass = s.elClass ∨ s2.elClass = some st.arrays.length)
    (hat : s2.elAttrs = s.elAttrs ∨ s2.elAttrs = some st.arrays.length)
    (hpc : s2.elPseudoClass = s.elPseudoClass
        ∨ s2.elPseudoClass = some st.arrays.length)
    (hone : (s2.elClass = s.elClass ∧ s2.elAttrs = s.elAttrs)
        ∨ (s2.elClass = s.elClass ∧ s2.elPseudoClass = s.elPseudoClass)
        ∨ (s2.elAttrs = s.elAttrs ∧ s2.elPseudoClass = s.elPseudoClass)) :
    SelWF s2 st2 = true := by
  obtain ⟨hc, ha, hp, hd1, hd2, hd3⟩ := (selWF_iff s st).mp hwf
  have bound : ∀ (o : Option Nat), RefOkP st o → ∀ r, o = some r →
      r < st2.arrays.length := by
    intro o ho r hr
    have := ho r hr
    omega
  have hcOk : RefOkP st2 s2.elClass := by
    intro r hr
    rcases hcl with h2 | h2
    · exact bound s.elClass hc r (h2 ▸ hr)
    · rw [h2] at hr
      cases hr
      omega
  have haOk : RefOkP st2 s2.elAttrs := by
    intro r hr
    rcases hat with h2 | h2
    · exact bound s.elAttrs ha r (h2 ▸ hr)
    · rw [h2] at hr
      cases hr
      omega
  have hpOk : RefOkP st2 s2.elPseudoClass := by
    intro r hr
    rcases hpc with h2 | h2
    · exact bound s.elPseudoClass hp r (h2 ▸ hr)
    · rw [h2] at hr
      cases hr
      omega
  have neOld : ∀ (o : Option Nat), RefOkP st o →
      NeRefP o (some st.arrays.length) ∧ NeRefP (some st.arrays.length) o := by
    intro o ho
    constructor
    · intro x y hx hy
      have := ho x hx
      cases hy
      omega
    · intro x y hx hy
      have := ho y hy
      cases hx
      omega
  refine (selWF_iff s2 st2).mpr ⟨hcOk, haOk, hpOk, ?_, ?_, ?_⟩
  · rcases hone with ⟨h1, h2⟩ | ⟨h1, h2⟩ | ⟨h1, h2⟩
    · rw [h1, h2]; exact hd1
    · rw [h1]
      rcases hat with h3 | h3
      · rw [h3]; exact hd1
      · rw [h3]; exact (neOld s.elClass hc).1
    · rw [h1]
      rcases hcl with h3 | h3
      · rw [h3]; exact hd1
      · rw [h3]; exact (neOld s.elAttrs ha).2
  · rcases hone with ⟨h1, h2⟩ | ⟨h1, h2⟩ | ⟨h1, h2⟩
    · rw [h1]
      rcases hpc with h3 | h3
      · rw [h3]; exact hd2
      · rw [h3]; exact (neOld s.elClass hc).1
    · rw [h1, h2]; exact hd2
    · rw [h2]
      rcases hcl with h3 | h3
      · rw [h3]; exact hd2
      · rw [h3]; exact (neOld s.elPseudoClass hp).2
  · rcases hone with ⟨h1, h2⟩ | ⟨h1, h2⟩ | ⟨h1, h2⟩
    · rw [h2]
      rcases hpc with h3 | h3
      · rw [h3]; exact hd3
      · rw [h3]; exact (neOld s.elAttrs ha).1
    · rw [h2]
      rcases hat with h3 | h3
      · rw [h3]; exact hd3
      · rw [h3]; exact (neOld s.elPseudoClass hp).2
    · rw [h1, h2]; exact hd3

/-- Invariant of the builder: every selector object alive after any sequence
of builder calls is well formed with respect to the current heap.  This
justifies the `SelWF` hypotheses of the theorems below: they cover every
reachable selector value. -/
theorem builders_wf (live : List Sel) (st : Store) (hb : Builders live st) :
    ∀ s ∈ live, SelWF s st = true := by
  induction hb with
  | init =>
    intro s hs
    rcases List.mem_singleton.mp hs with h2
    subst h2
    rfl
  | stepElement live st s v s' st' hb hs h ih =>
    obtain ⟨hst, hs'⟩ := element_ok_elim s st v s' st' h
    subst hst
    subst hs'
    intro t ht
    rcases List.mem_cons.mp ht with h2 | h2
    · subst h2
      rfl
    · exact ih t h2
  | stepId live st s v s' st' hb hs h ih =>
    obtain ⟨hst, hs'⟩ := id_ok_elim s st v s' st' h
    subst hst
    subst hs'
    intro t ht
    rcases List.mem_cons.mp ht with h2 | h2
    · subst h2
      exact ih s hs
    · exact ih t h2
  | stepPseudoElement live st s v s' st' hb hs h ih =>
    obtain ⟨hst, hs'⟩ := pseudoElement_ok_elim s st v s' st' h
    subst hst
    subst hs'
    intro t ht
    rcases List.mem_cons.mp ht with h2 | h2
    · subst h2
      exact ih s hs
    · exact ih t h2
  | stepClass live st s v s' st' hb hs h ih =>
    rcases class_ok_elim s st v s' st' h with ⟨r, _, rfl, rfl⟩ |
      ⟨_, hs', hst⟩
    · have hlen : st.arrays.length ≤ (st.push r v).arrays.length := by
        rw [length_push]
      intro t ht
      rcases List.mem_cons.mp ht with h2 | h2
      · subst h2
        exact selWF_mono t st _ hlen (ih t hs)
      · exact selWF_mono t st _ hlen (ih t h2)
    · subst hs'
      subst hst
      have hlen : st.arrays.length ≤ (st.alloc [v]).2.arrays.length := by
        rw [length_alloc]
        omega
      intro t ht
      rcases List.mem_cons.mp ht with h2 | h2
      · subst h2
        exact selWF_fresh s st (ih s hs) _ _ (length_alloc st [v])
          (Or.inr rfl) (Or.inl rfl) (Or.inl rfl)
          (Or.inr (Or.inr ⟨rfl, rfl⟩))
      · exact selWF_mono t st _ hlen (ih t h2)
  | stepAttr live st s v s' st' hb hs h ih =>
    rcases attr_ok_elim s st v s' st' h with ⟨r, _, rfl, rfl⟩ |
      ⟨_, hs', hst⟩
    · have hlen : st.arrays.length ≤ (st.push r v).arrays.length := by
        rw [length_push]
      intro t ht
      rcases List.mem_cons.mp ht with h2 | h2
      · subst h2
        exact selWF_mono t st _ hlen (ih t hs)
      · exact selWF_mono t st _ hlen (ih t h2)
    · subst hs'
      subst hst
      have hlen : st.arrays.length ≤ (st.alloc [v]).2.arrays.length := by
        rw [length_alloc]
        omega
      intro t ht
      rcases List.mem_cons.mp ht with h2 | h2
      · subst h2
        exact selWF_fresh s st (ih s hs) _ _ (length_alloc st [v])
          (Or.inl rfl) (Or.inr rfl) (Or.inl rfl)
          (Or.inr (Or.inl ⟨rfl, rfl⟩))
      · exact selWF_mono t st _ hlen (ih t h2)
  | stepPseudoClass live st s v s' st' hb hs h ih =>
    rcases pseudoClass_ok_elim s st v s' st' h with ⟨r, _, rfl, rfl⟩ |
      ⟨_, hs', hst⟩
    · have hlen : st.arrays.length ≤ (st.push r v).arrays.length := by
        rw [length_push]
      intro t ht
      rcases List.mem_cons.mp ht with h2 | h2
      · subst h2
        exact selWF_mono t st _ hlen (ih t hs)
      · exact selWF_mono t st _ hlen (ih t h2)
    · subst hs'
      subst hst
      have hlen : st.arrays.length ≤ (st.alloc [v]).2.arrays.length := by
        rw [length_alloc]
        omega
      intro t ht
      rcases List.mem_cons.mp ht with h2 | h2
      · subst h2
        exact selWF_fresh s st (ih s hs) _ _ (length_alloc st [v])
          (Or.inl rfl) (Or.inl rfl) (Or.inr rfl)
          (Or.inl ⟨rfl, rfl⟩)
      · exact selWF_mono t st _ hlen (ih t h2)

/-- The head of a non-empty list is unchanged by appending at the end. -/
theorem headD_append_of_ne_nil (l l2 : List String) (d : String)
    (h : l ≠ []) : (l ++ l2).headD d = l.headD d := by
  cases l with
  | nil => exact absurd rfl h
  | cons a t => rfl

/-- Pushing onto the class array extends the rendered class position by one
more dot-prefixed class. -/
theorem selPartClasses_push_self (s : Sel) (st : Store) (r : Nat) (v : String)
    (hr : s.elClass = some r) (hb : r < st.arrays.length) :
    selPartClasses s (st.push r v) = selPartClasses s st ++ "." ++ v := by
  unfold selPartClasses
  rw [hr]
  dsimp only
  rw [lookupArr_push_self st r v hb, prefJoin_append_one]

/-- Pushing onto the pseudo-class array extends the rendered pseudo-class
position by one more colon-prefixed pseudo-class. -/
theorem selPartPseudoClasses_push_self (s : Sel) (st : Store) (r : Nat)
    (v : String) (hr : s.elPseudoClass = some r) (hb : r < st.arrays.length) :
    selPartPseudoClasses s (st.push r v)
      = selPartPseudoClasses s st ++ ":" ++ v := by
  unfold selPartPseudoClasses
  rw [hr]
  dsimp only
  rw [lookupArr_push_self st r v hb, prefJoin_append_one]

/-- Pushing onto a non-empty attribute array does not change the rendered
attribute position: only the first attribute is rendered. -/
theorem selPartAttr_push_self (s : Sel) (st : Store) (r : Nat) (v : String)
    (hr : s.elAttrs = some r) (hb : r < st.arrays.length)
    (hne : lookupArr st r ≠ []) :
    selPartAttr s (st.push r v) = selPartAttr s st := by
  unfold selPartAttr
  rw [hr]
  dsimp only
  rw [lookupArr_push_self st r v hb,
    headD_append_of_ne_nil (lookupArr st r) [v] "" hne]
  have h1 : (lookupArr st r ++ [v]).length ≠ 0 := by
    simp
  have h2 : (lookupArr st r).length ≠ 0 := by
    intro h0
    exact hne (List.length_eq_zero.mp h0)
  rw [if_pos h1, if_pos h2]

/-- The chain `builder.id('main').class('container').class('editable')` of the
specification's first stringify example, run from the exported singleton
and the empty heap. -/
def exBuild1 : Except JsError (Sel × Store) := do
  let p1 ← CssSelectorBuilder.id cssSelectorBuilderSel emptyStore "main"
  let p2 ← CssSelectorBuilder.class p1.1 p1.2 "container"
  CssSelectorBuilder.class p2.1 p2.2 "editable"

/-- The chain `builder.element('a').attr('href$=".png"').pseudoClass('focus')`
of the specification's second stringify example. -/
def exBuild2 : Except JsError (Sel × Store) := do
  let p1 ← CssSelectorBuilder.element cssSelectorBuilderSel emptyStore "a"
  let p2 ← CssSelectorBuilder.attr p1.1 p1.2 "href$=\".png\""
  CssSelectorBuilder.pseudoClass p2.1 p2.2 "focus"

/-- Claim C2: for every simple selector, `stringify()` is the concatenation in
fixed order of the element (if set), `#` + id (if set), each class in
append order prefixed with `.`, only the first appended attribute wrapped
in square brackets, each pseudo-class in append order prefixed with `:`,
and `::` + pseudo-element (if set); absent fields contribute the empty
string ("set" is the code's truthiness test: a non-empty string).  The two
example chains of the specification produce the stated strings. -/
theorem c2_stringify_format :
    (∀ (s : Sel) (st : Store),
        renderSel s st
          = selPartEl s ++ selPartId s ++ selPartClasses s st
            ++ selPartAttr s st ++ selPartPseudoClasses s st ++ selPartPE s)
      ∧ exBuild1.map (fun p => renderSel p.1 p.2)
          = .ok "#main.container.editable"
      ∧ exBuild2.map (fun p => renderSel p.1 p.2)
          = .ok "a[href$=\".png\"]:focus" :=
  ⟨renderSel_eq_parts, by decide, by decide⟩

/-- Unfolding of `stringify` on a combined selector: the precomputed string
when it is truthy, otherwise the property walk finds nothing and yields
the empty string. -/
theorem stringify_combined (cmb : String) (a b : Selector) (st : Store) :
    stringify (.combinedSel cmb a b) st = if cmb ≠ "" then cmb else "" := rfl

/-- Claim C5: for every two selector values (simple or combined) and every
combinator string, `combine(A, c, B).stringify()` is
`A.stringify() + ' ' + c + ' ' + B.stringify()`; the combinator is not
validated, so this holds for arbitrary strings `c`. -/
theorem c5_combine (A B : Selector) (c : String) (st : Store) :
    stringify (CssSelectorBuilder.combine A c B st) st
      = stringify A st ++ " " ++ c ++ " " ++ stringify B st := by
  have hcomb : CssSelectorBuilder.combine A c B st
      = .combinedSel (stringify A st ++ (" " ++ c ++ " ") ++ stringify B st)
          A B := rfl
  have hne : stringify A st ++ (" " ++ c ++ " ") ++ stringify B st ≠ "" := by
    intro h
    have hl := congrArg String.length h
    rw [String.length_append, String.length_append, String.length_append]
      at hl
    have hsp : (" " : String).length = 1 := rfl
    have hemp : ("" : String).length = 0 := rfl
    rw [hsp, hemp] at hl
    omega
  rw [hcomb, stringify_combined, if_pos hne]
  simp [String.append_assoc]

/-- Claim C10: the exported singleton has no selector field set, and it
renders as the empty string in every heap — in particular in the heap
after any sequence of builder calls, since those only ever extend or push
to heap arrays that the singleton does not reference, and never assign to
the singleton itself. -/
theorem c10_singleton (st : Store) :
    cssSelectorBuilderSel.el = none
      ∧ cssSelectorBuilderSel.elID = none
      ∧ cssSelectorBuilderSel.elClass = none
      ∧ cssSelectorBuilderSel.elAttrs = none
      ∧ cssSelectorBuilderSel.elPseudoClass = none
      ∧ cssSelectorBuilderSel.elPseudoElement = none
      ∧ renderSel cssSelectorBuilderSel st = "" :=
  ⟨rfl, rfl, rfl, rfl, rfl, rfl, rfl⟩

/-- Claim C4: `element`, `id` and `pseudoElement` fail with the duplicate
error when their field is already set (set in the code's sense:
holding a non-empty string, since the guards are truthiness tests), while
`class`, `attr` and `pseudoClass` never fail for duplication — their only
possible error is the order error — and instead append the value to the
corresponding sequence. -/
theorem c4_duplicate_rules (s : Sel) (st : Store) (v : String) :
    (truthyStr s.el = true
        → CssSelectorBuilder.element s st v = .error .duplicateError)
      ∧ (truthyStr s.elID = true
        → CssSelectorBuilder.id s st v = .error .duplicateError)
      ∧ (truthyStr s.elPseudoElement = true
        → CssSelectorBuilder.pseudoElement s st v = .error .duplicateError)
      ∧ (∀ e, CssSelectorBuilder.class s st v = .error e → e = .orderError)
      ∧ (∀ e, CssSelectorBuilder.attr s st v = .error e → e = .orderError)
      ∧ (∀ e, CssSelectorBuilder.pseudoClass s st v = .error e
        → e = .orderError)
      ∧ (∀ r, s.elClass = some r → r < st.arrays.length → ∀ s' st',
          CssSelectorBuilder.class s st v = .ok (s', st')
            → lookupArr st' r = lookupArr st r ++ [v])
      ∧ (∀ r, s.elAttrs = some r → r < st.arrays.length → ∀ s' st',
          CssSelectorBuilder.attr s st v = .ok (s', st')
            → lookupArr st' r = lookupArr st r ++ [v])
      ∧ (∀ r, s.elPseudoClass = some r → r < st.arrays.length → ∀ s' st',
          CssSelectorBuilder.pseudoClass s st v = .ok (s', st')
            → lookupArr st' r = lookupArr st r ++ [v]) := by
  refine ⟨?_, ?_, ?_, ?_, ?_, ?_, ?_, ?_, ?_⟩
  · intro h
    simp [CssSelectorBuilder.element, h]
  · intro h
    simp [CssSelectorBuilder.id, h]
  · intro h
    simp [CssSelectorBuilder.pseudoElement, h]
  · intro e he
    unfold CssSelectorBuilder.class at he
    split at he
    · injection he with h2
      exact h2.symm
    · cases hc : s.elClass <;> rw [hc] at he <;> simp [Store.alloc] at he
  · intro e he
    unfold CssSelectorBuilder.attr at he
    split at he
    · injection he with h2
      exact h2.symm
    · cases hc : s.elAttrs <;> rw [hc] at he <;> simp [Store.alloc] at he
  · intro e he
    unfold CssSelectorBuilder.pseudoClass at he
    split at he
    · injection he with h2
      exact h2.symm
    · cases hc : s.elPseudoClass <;> rw [hc] at he <;>
        simp [Store.alloc] at he
  · intro r hr hb s' st' h
    rcases class_ok_elim s st v s' st' h with ⟨r2, hr2, _, rfl⟩ |
      ⟨hnone, _, _⟩
    · rw [hr] at hr2
      injection hr2 with h2
      subst h2
      exact lookupArr_push_self st r v hb
    · rw [hr] at hnone
      exact absurd hnone (by simp)
  · intro r hr hb s' st' h
    rcases attr_ok_elim s st v s' st' h with ⟨r2, hr2, _, rfl⟩ |
      ⟨hnone, _, _⟩
    · rw [hr] at hr2
      injection hr2 with h2
      subst h2
      exact lookupArr_push_self st r v hb
    · rw [hr] at hnone
      exact absurd hnone (by simp)
  · intro r hr hb s' st' h
    rcases pseudoClass_ok_elim s st v s' st' h with ⟨r2, hr2, _, rfl⟩ |
      ⟨hnone, _, _⟩
    · rw [hr] at hr2
      injection hr2 with h2
      subst h2
      exact lookupArr_push_self st r v hb
    · rw [hr] at hnone
      exact absurd hnone (by simp)

/-- Witness for C4 at concrete inputs: a selector with element `'a'` rejects a
second element, a selector with id `'x'` rejects a second id, a selector
with pseudo-element `'after'` rejects a second pseudo-element, and a
second `class` call appends to the existing class array. -/
theorem c4_duplicate_rules_witness :
    CssSelectorBuilder.element { el := some "a" } emptyStore "b"
        = .error .duplicateError
      ∧ CssSelectorBuilder.id { elID := some "x" } emptyStore "y"
        = .error .duplicateError
      ∧ CssSelectorBuilder.pseudoElement { elPseudoElement := some "after" }
          emptyStore "before" = .error .duplicateError
      ∧ lookupArr (Store.push ⟨[["x"]]⟩ 0 "y") 0 = lookupArr ⟨[["x"]]⟩ 0 ++ ["y"] :=
  ⟨(c4_duplicate_rules { el := some "a" } emptyStore "b").1 (by decide),
   (c4_duplicate_rules { elID := some "x" } emptyStore "y").2.1 (by decide),
   (c4_duplicate_rules { elPseudoElement := some "after" } emptyStore
       "before").2.2.1 (by decide),
   (c4_duplicate_rules { elClass := some 0, protIsObj := true } ⟨[["x"]]⟩
       "y").2.2.2.2.2.2.1 0 (by decide) (by decide)
     { elClass := some 0, protIsObj := true } (Store.push ⟨[["x"]]⟩ 0 "y")
     (by decide)⟩

/-- Counterexample to claim C3 as stated: in the reachable state
`builder.element('a').id('b')`, the id field (a later-order field than
element) is set, yet `element('c')` fails with the duplicate error, not
the order error — the duplicate check runs first. -/
theorem c3_order_counterexample :
    CssSelectorBuilder.element cssSelectorBuilderSel emptyStore "a"
        = .ok ({ el := some "a" }, emptyStore)
      ∧ CssSelectorBuilder.id { el := some "a" } emptyStore "b"
        = .ok ({ el := some "a", elID := some "b" }, emptyStore)
      ∧ truthyStr (Sel.elID { el := some "a", elID := some "b" }) = true
      ∧ CssSelectorBuilder.element { el := some "a", elID := some "b" }
          emptyStore "c" = .error .duplicateError
      ∧ CssSelectorBuilder.element { el := some "a", elID := some "b" }
          emptyStore "c" ≠ .error .orderError := by
  refine ⟨by decide, by decide, by decide, by decide, by decide⟩

/-- Claim C3 amended: setting an earlier-order field after a later-order one
always fails, with the order error unless the duplicate check fires
first: `element(v)` fails when id, class, attribute, pseudo-class or
pseudo-element is set — with the duplicate error when element itself is
also set, the order error otherwise; `id(v)` likewise (duplicate error
when id itself is also set); `class(v)`, `attr(v)` and `pseudoClass(v)`
fail with the order error when a later-order field is set; and
`.class('x').element('a')` fails with the order error. -/
theorem c3_order_errors_amended (s : Sel) (st : Store) (v : String) :
    ((truthyStr s.elID || s.elAttrs.isSome || s.elClass.isSome
        || s.elPseudoClass.isSome || truthyStr s.elPseudoElement) = true
      → CssSelectorBuilder.element s st v
          = .error (if truthyStr s.el then .duplicateError else .orderError))
      ∧ ((s.elAttrs.isSome || s.elClass.isSome || s.elPseudoClass.isSome
            || truthyStr s.elPseudoElement) = true
        → CssSelectorBuilder.id s st v
            = .error
                (if truthyStr s.elID then .duplicateError else .orderError))
      ∧ ((s.elAttrs.isSome || s.elPseudoClass.isSome
            || truthyStr s.elPseudoElement) = true
        → CssSelectorBuilder.class s st v = .error .orderError)
      ∧ ((s.elPseudoClass.isSome || truthyStr s.elPseudoElement) = true
        → CssSelectorBuilder.attr s st v = .error .orderError)
      ∧ (truthyStr s.elPseudoElement = true
        → CssSelectorBuilder.pseudoClass s st v = .error .orderError)
      ∧ CssSelectorBuilder.class cssSelectorBuilderSel emptyStore "x"
          = .ok ({ elClass := some 0, protIsObj := true }, ⟨[["x"]]⟩)
      ∧ CssSelectorBuilder.element { elClass := some 0, protIsObj := true }
          ⟨[["x"]]⟩ "a" = .error .orderError := by
  refine ⟨?_, ?_, ?_, ?_, ?_, by decide, by decide⟩
  · intro h
    cases hd : truthyStr s.el <;> simp [CssSelectorBuilder.element, hd, h]
  · intro h
    cases hd : truthyStr s.elID <;> simp [CssSelectorBuilder.id, hd, h]
  · intro h
    simp [CssSelectorBuilder.class, h]
  · intro h
    simp [CssSelectorBuilder.attr, h]
  · intro h
    simp [CssSelectorBuilder.pseudoClass, h]

/-- Witness for the amended C3 at concrete inputs: an element call on a
selector with only an id set fails with the order error, and a class call
on a selector with an attribute set fails with the order error. -/
theorem c3_order_errors_amended_witness :
    CssSelectorBuilder.element { elID := some "b" } emptyStore "c"
        = .error .orderError
      ∧ CssSelectorBuilder.class { elAttrs := some 0 } ⟨[["w"]]⟩ "c"
        = .error .orderError := by
  constructor
  · have h := (c3_order_errors_amended { elID := some "b" } emptyStore "c").1
      (by decide)
    simpa using h
  · exact (c3_order_errors_amended { elAttrs := some 0 } ⟨[["w"]]⟩ "c").2.2.1
      (by decide)

/-- Claim C6: on any well-formed selector on which `attr` may legally be
called and whose attribute array is non-empty, a further `attr` call
succeeds by pushing onto the shared array, and the receiver's rendered
string is unchanged — `stringify` renders only the first attribute, and
pushing at the end does not change the first element. -/
theorem c6_attr_stringify_stable (s : Sel) (st : Store) (v : String) (r : Nat)
    (hwf : SelWF s st = true) (hr : s.elAttrs = some r)
    (hne : lookupArr st r ≠ [])
    (hleg : (s.elPseudoClass.isSome || truthyStr s.elPseudoElement) = false) :
    CssSelectorBuilder.attr s st v = .ok (s, st.push r v)
      ∧ renderSel s (st.push r v) = renderSel s st := by
  obtain ⟨hc, ha, hp, hd1, hd2, hd3⟩ := (selWF_iff s st).mp hwf
  have hb : r < st.arrays.length := ha r hr
  constructor
  · simp [CssSelectorBuilder.attr, hleg, hr]
  · rw [renderSel_eq_parts, renderSel_eq_parts]
    have hcls : selPartClasses s (st.push r v) = selPartClasses s st :=
      selPartClasses_congr s st _ (fun r2 hr2 =>
        lookupArr_push_ne st r2 r v (hd1 r2 r hr2 hr))
    have hpcs : selPartPseudoClasses s (st.push r v)
        = selPartPseudoClasses s st :=
      selPartPseudoClasses_congr s st _ (fun r2 hr2 =>
        lookupArr_push_ne st r2 r v (Ne.symm (hd3 r r2 hr hr2)))
    have hat : selPartAttr s (st.push r v) = selPartAttr s st :=
      selPartAttr_push_self s st r v hr hb hne
    rw [hcls, hpcs, hat]

/-- Witness for C6 at a concrete input: a second attribute pushed onto an
existing one-attribute array leaves the rendered string unchanged. -/
theorem c6_attr_stringify_stable_witness :
    CssSelectorBuilder.attr { elAttrs := some 0, protIsObj := true }
        ⟨[["href"]]⟩ "x"
      = .ok ({ elAttrs := some 0, protIsObj := true },
          Store.push ⟨[["href"]]⟩ 0 "x")
      ∧ renderSel { elAttrs := some 0, protIsObj := true }
          (Store.push ⟨[["href"]]⟩ 0 "x")
        = renderSel { elAttrs := some 0, protIsObj := true } ⟨[["href"]]⟩ :=
  c6_attr_stringify_stable { elAttrs := some 0, protIsObj := true }
    ⟨[["href"]]⟩ "x" 0 (by decide) (by decide) (by decide) (by decide)

/-- Counterexample to claim C1 as stated: the builder calls are not functional
updates.  In the reachable state `s = cssSelectorBuilder.class('x')`,
calling `s.class('y')` pushes onto the class array shared between `s` and
the result, so `s.stringify()` changes from `'.x'` before the call to
`'.x.y'` after it. -/
theorem c1_mutation_counterexample :
    CssSelectorBuilder.class cssSelectorBuilderSel emptyStore "x"
        = .ok ({ elClass := some 0, protIsObj := true }, ⟨[["x"]]⟩)
      ∧ renderSel { elClass := some 0, protIsObj := true } ⟨[["x"]]⟩ = ".x"
      ∧ CssSelectorBuilder.class { elClass := some 0, protIsObj := true }
          ⟨[["x"]]⟩ "y"
        = .ok ({ elClass := some 0, protIsObj := true }, ⟨[["x", "y"]]⟩)
      ∧ renderSel { elClass := some 0, protIsObj := true } ⟨[["x", "y"]]⟩
        = ".x.y"
      ∧ (".x.y" : String) ≠ ".x" :=
  ⟨by decide, by decide, by decide, by decide, by decide⟩

/-- Claim C1 amended: `element`, `id` and `pseudoElement` leave the heap and
hence the receiver's rendered string unchanged, as do `class`, `attr` and
`pseudoClass` when the corresponding array does not exist yet (a fresh
array is allocated for the result only); but when the corresponding array
already exists, the value is pushed onto the array shared with the
receiver: after `s.class(v)` the receiver renders with one more
dot-prefixed class, after `s.pseudoClass(v)` with one more
colon-prefixed pseudo-class, while after `s.attr(v)` the receiver's
rendered string is unchanged only because `stringify` renders just the
first attribute. -/
theorem c1_builder_frame_amended (s : Sel) (st : Store) (v : String)
    (hwf : SelWF s st = true) :
    (∀ s' st', CssSelectorBuilder.element s st v = .ok (s', st')
      → st' = st ∧ renderSel s st' = renderSel s st)
      ∧ (∀ s' st', CssSelectorBuilder.id s st v = .ok (s', st')
        → st' = st ∧ renderSel s st' = renderSel s st)
      ∧ (∀ s' st', CssSelectorBuilder.pseudoElement s st v = .ok (s', st')
        → st' = st ∧ renderSel s st' = renderSel s st)
      ∧ (s.elClass = none
        → ∀ s' st', CssSelectorBuilder.class s st v = .ok (s', st')
          → renderSel s st' = renderSel s st)
      ∧ (s.elAttrs = none
        → ∀ s' st', CssSelectorBuilder.attr s st v = .ok (s', st')
          → renderSel s st' = renderSel s st)
      ∧ (s.elPseudoClass = none
        → ∀ s' st', CssSelectorBuilder.pseudoClass s st v = .ok (s', st')
          → renderSel s st' = renderSel s st)
      ∧ (∀ r, s.elClass = some r
        → ∀ s' st', CssSelectorBuilder.class s st v = .ok (s', st')
          → s' = s ∧ renderSel s st'
              = selPartEl s ++ selPartId s
                ++ (selPartClasses s st ++ "." ++ v) ++ selPartAttr s st
                ++ selPartPseudoClasses s st ++ selPartPE s)
      ∧ (∀ r, s.elPseudoClass = some r
        → ∀ s' st', CssSelectorBuilder.pseudoClass s st v = .ok (s', st')
          → s' = s ∧ renderSel s st'
              = selPartEl s ++ selPartId s ++ selPartClasses s st
                ++ selPartAttr s st
                ++ (selPartPseudoClasses s st ++ ":" ++ v) ++ selPartPE s)
      ∧ (∀ r, s.elAttrs = some r → lookupArr st r ≠ []
        → ∀ s' st', CssSelectorBuilder.attr s st v = .ok (s', st')
          → s' = s ∧ renderSel s st' = renderSel s st) := by
  obtain ⟨hc, ha, hp, hd1, hd2, hd3⟩ := (selWF_iff s st).mp hwf
  refine ⟨?_, ?_, ?_, ?_, ?_, ?_, ?_, ?_, ?_⟩
  · intro s' st' h
    obtain ⟨rfl, _⟩ := element_ok_elim s st v s' st' h
    exact ⟨rfl, rfl⟩
  · intro s' st' h
    obtain ⟨rfl, _⟩ := id_ok_elim s st v s' st' h
    exact ⟨rfl, rfl⟩
  · intro s' st' h
    obtain ⟨rfl, _⟩ := pseudoElement_ok_elim s st v s' st' h
    exact ⟨rfl, rfl⟩
  · intro hn s' st' h
    rcases class_ok_elim s st v s' st' h with ⟨r2, hr2, _, _⟩ | ⟨_, _, rfl⟩
    · rw [hn] at hr2
      exact absurd hr2 (by simp)
    · exact renderSel_alloc s st [v] hwf
  · intro hn s' st' h
    rcases attr_ok_elim s st v s' st' h with ⟨r2, hr2, _, _⟩ | ⟨_, _, rfl⟩
    · rw [hn] at hr2
      exact absurd hr2 (by simp)
    · exact renderSel_alloc s st [v] hwf
  · intro hn s' st' h
    rcases pseudoClass_ok_elim s st v s' st' h with ⟨r2, hr2, _, _⟩ |
      ⟨_, _, rfl⟩
    · rw [hn] at hr2
      exact absurd hr2 (by simp)
    · exact renderSel_alloc s st [v] hwf
  · intro r hr s' st' h
    rcases class_ok_elim s st v s' st' h with ⟨r2, hr2, hss, rfl⟩ |
      ⟨hn, _, _⟩
    · rw [hr] at hr2
      injection hr2 with h2
      subst h2
      refine ⟨hss, ?_⟩
      rw [renderSel_eq_parts,
        selPartClasses_push_self s st r v hr (hc r hr),
        selPartAttr_congr s st _ (fun r2 hr2 =>
          lookupArr_push_ne st r2 r v (Ne.symm (hd1 r r2 hr hr2))),
        selPartPseudoClasses_congr s st _ (fun r2 hr2 =>
          lookupArr_push_ne st r2 r v (Ne.symm (hd2 r r2 hr hr2)))]
    · rw [hr] at hn
      exact absurd hn (by simp)
  · intro r hr s' st' h
    rcases pseudoClass_ok_elim s st v s' st' h with ⟨r2, hr2, hss, rfl⟩ |
      ⟨hn, _, _⟩
    · rw [hr] at hr2
      injection hr2 with h2
      subst h2
      refine ⟨hss, ?_⟩
      rw [renderSel_eq_parts,
        selPartPseudoClasses_push_self s st r v hr (hp r hr),
        selPartAttr_congr s st _ (fun r2 hr2 =>
          lookupArr_push_ne st r2 r v (hd3 r2 r hr2 hr)),
        selPartClasses_congr s st _ (fun r2 hr2 =>
          lookupArr_push_ne st r2 r v (hd2 r2 r hr2 hr))]
    · rw [hr] at hn
      exact absurd hn (by simp)
  · intro r hr hne s' st' h
    rcases attr_ok_elim s st v s' st' h with ⟨r2, hr2, hss, rfl⟩ | ⟨hn, _, _⟩
    · rw [hr] at hr2
      injection hr2 with h2
      subst h2
      refine ⟨hss, ?_⟩
      rw [renderSel_eq_parts, renderSel_eq_parts,
        selPartAttr_push_self s st r v hr (ha r hr) hne,
        selPartClasses_congr s st _ (fun r2 hr2 =>
          lookupArr_push_ne st r2 r v (hd1 r2 r hr2 hr)),
        selPartPseudoClasses_congr s st _ (fun r2 hr2 =>
          lookupArr_push_ne st r2 r v (Ne.symm (hd3 r r2 hr hr2)))]
    · rw [hr] at hn
      exact absurd hn (by simp)

/-- Witness for the amended C1 at a concrete input: pushing a second class
onto `cssSelectorBuilder.class('x')` makes the receiver render with the
extra class `.y`. -/
theorem c1_builder_frame_amended_witness :
    renderSel { elClass := some 0, protIsObj := true }
        (Store.push ⟨[["x"]]⟩ 0 "y")
      = selPartEl { elClass := some 0, protIsObj := true }
        ++ selPartId { elClass := some 0, protIsObj := true }
        ++ (selPartClasses { elClass := some 0, protIsObj := true } ⟨[["x"]]⟩
            ++ "." ++ "y")
        ++ selPartAttr { elClass := some 0, protIsObj := true } ⟨[["x"]]⟩
        ++ selPartPseudoClasses { elClass := some 0, protIsObj := true }
            ⟨[["x"]]⟩
        ++ selPartPE { elClass := some 0, protIsObj := true } :=
  ((c1_builder_frame_amended { elClass := some 0, protIsObj := true }
      ⟨[["x"]]⟩ "y" (by decide)).2.2.2.2.2.2.1 0 rfl
    { elClass := some 0, protIsObj := true }
    (Store.push ⟨[["x"]]⟩ 0 "y") (by decide)).2

/-- A JSON value, the result of `JSON.parse` and the input of
`JSON.stringify`.  Numbers are modelled as integers (the examples and
claims only involve integers). -/
inductive JsonVal where
  | null
  | bool (b : Bool)
  | num (n : Int)
  | str (s : String)
  | arr (xs : List JsonVal)
  | obj (kvs : List (String × JsonVal))

/-- The opening-brace character. -/
def lbrace : Char := Char.ofNat 123

/-- The closing-brace character. -/
def rbrace : Char := Char.ofNat 125

/-- Whitespace skipping of the JSON grammar. -/
def skipWs : List Char → List Char
  | [] => []
  | c :: cs =>
    if c = ' ' ∨ c = '\n' ∨ c = '\t' ∨ c = '\r' then skipWs cs else c :: cs

/-- Decimal digits to a natural number. -/
def digitsToNat (ds : List Char) : Nat :=
  ds.foldl (fun a c => a * 10 + (c.toNat - 48)) 0

/-- Body of a JSON string literal after the opening quote, with the common
escapes; returns the decoded string and the input after the closing
quote. -/
def parseStringBody : List Char → Option (String × List Char)
  | [] => none
  | '"' :: rest => some ("", rest)
  | '\\' :: rest =>
    match rest with
    | [] => none
    | e :: rest2 =>
      let c? : Option Char :=
        if e = '"' then some '"'
        else if e = '\\' then some '\\'
        else if e = '/' then some '/'
        else if e = 'n' then some '\n'
        else if e = 't' then some '\t'
        else if e = 'r' then some '\r'
        else if e = 'b' then some (Char.ofNat 8)
        else if e = 'f' then some (Char.ofNat 12)
        else none
      match c? with
      | none => none
      | some c =>
        match parseStringBody rest2 with
        | none => none
        | some (s, r) => some (c.toString ++ s, r)
  | c :: rest =>
    match parseStringBody rest with
    | none => none
    | some (s, r) => some (c.toString ++ s, r)

/-- Insertion into a key/value list with JavaScript assignment semantics: an
existing key keeps its position and gets the new value, a new key is
appended. -/
def insertKV (l : List (String × JsonVal)) (k : String) (v : JsonVal) :
    List (String × JsonVal) :=
  if l.any (fun p => p.1 == k) then
    l.map (fun p => if p.1 == k then (k, v) else p)
  else l ++ [(k, v)]

mutual

/-- Modelled from the spec: the `JSON.parse` builtin used by `fromJSON`.  A
recursive-descent parser for JSON values (objects, arrays, strings with
common escapes, integer numbers, booleans, null), fuel-indexed for
termination; fractional and exponent number forms and `\u` escapes are
not modelled. -/
def parseValue : Nat → List Char → Option (JsonVal × List Char)
  | 0, _ => none
  | fuel + 1, input =>
    match skipWs input with
    | [] => none
    | c :: cs =>
      if c = '"' then
        match parseStringBody cs with
        | none => none
        | some (s, r) => some (.str s, r)
      else if c = lbrace then
        match skipWs cs with
        | d :: ds =>
          if d = rbrace then some (.obj [], ds)
          else parseMembers fuel (d :: ds) []
        | [] => none
      else if c = '[' then
        match skipWs cs with
        | d :: ds =>
          if d = ']' then some (.arr [], ds)
          else parseElems fuel (d :: ds) []
        | [] => none
      else if c = 't' then
        match cs with
        | 'r' :: 'u' :: 'e' :: r => some (.bool true, r)
        | _ => none
      else if c = 'f' then
        match cs with
        | 'a' :: 'l' :: 's' :: 'e' :: r => some (.bool false, r)
        | _ => none
      else if c = 'n' then
        match cs with
        | 'u' :: 'l' :: 'l' :: r => some (.null, r)
        | _ => none
      else
        match (if c = '-' then (true, cs) else (false, c :: cs)) with
        | (neg, cs1) =>
          match cs1.span Char.isDigit with
          | (ds, rest) =>
            if ds.isEmpty then none
            else
              match rest with
              | '.' :: _ => none
              | 'e' :: _ => none
              | 'E' :: _ => none
              | _ =>
                some (.num (if neg then -(digitsToNat ds : Int)
                  else (digitsToNat ds : Int)), rest)

/-- Members of a JSON object after the opening brace (non-empty case). -/
def parseMembers : Nat → List Char → List (String × JsonVal) →
    Option (JsonVal × List Char)
  | 0, _, _ => none
  | fuel + 1, input, acc =>
    match skipWs input with
    | '"' :: cs =>
      match parseStringBody cs with
      | none => none
      | some (k, r1) =>
        match skipWs r1 with
        | ':' :: r2 =>
          match parseValue fuel r2 with
          | none => none
          | some (v, r3) =>
            match skipWs r3 with
            | ',' :: r4 => parseMembers fuel r4 (insertKV acc k v)
            | d :: r4 =>
              if d = rbrace then some (.obj (insertKV acc k v), r4)
              else none
            | [] => none
        | _ => none
    | _ => none

/-- Elements of a JSON array after the opening bracket (non-empty case). -/
def parseElems : Nat → List Char → List JsonVal →
    Option (JsonVal × List Char)
  | 0, _, _ => none
  | fuel + 1, input, acc =>
    match parseValue fuel input with
    | none => none
    | some (v, r1) =>
      match skipWs r1 with
      | ',' :: r2 => parseElems fuel r2 (acc ++ [v])
      | ']' :: r2 => some (.arr (acc ++ [v]), r2)
      | _ => none

end

/-- The message of the parse failure (`SyntaxError` in JavaScript). -/
def jsonParseErrorMsg : String := "Unexpected token in JSON"

/-- Modelled from the spec: the top level of the `JSON.parse` builtin — parse
one value, allow trailing whitespace, fail on anything else. -/
def JSONparse (s : String) : Except String JsonVal :=
  match parseValue (s.length + 1) s.data with
  | some (v, rest) =>
    match skipWs rest with
    | [] => .ok v
    | _ => .error jsonParseErrorMsg
  | none => .error jsonParseErrorMsg

/-- JSON string escaping for the serializer. -/
def escapeJsonChar (c : Char) : String :=
  if c = '"' then "\\\""
  else if c = '\\' then "\\\\"
  else if c = '\n' then "\\n"
  else if c = '\t' then "\\t"
  else if c = '\r' then "\\r"
  else c.toString

/-- Escape every character of a string for JSON output. -/
def escapeJson (s : String) : String :=
  s.data.foldl (fun a c => a ++ escapeJsonChar c) ""

mutual

/-- Modelled from the spec: the `JSON.stringify` builtin used by `getJSON` —
standard JSON serialization, with object keys in the order in which the
mapping lists them. -/
def stringifyJson : JsonVal → String
  | .null => "null"
  | .bool b => if b then "true" else "false"
  | .num n => toString n
  | .str s => "\"" ++ escapeJson s ++ "\""
  | .arr xs => "[" ++ stringifyJsonElems xs ++ "]"
  | .obj kvs => "\x7b" ++ stringifyJsonMembers kvs ++ "\x7d"

/-- Comma-separated serialization of array elements. -/
def stringifyJsonElems : List JsonVal → String
  | [] => ""
  | [x] => stringifyJson x
  | x :: y :: r => stringifyJson x ++ "," ++ stringifyJsonElems (y :: r)

/-- Comma-separated serialization of object members. -/
def stringifyJsonMembers : List (String × JsonVal) → String
  | [] => ""
  | [(k, v)] => "\"" ++ escapeJson k ++ "\":" ++ stringifyJson v
  | (k, v) :: p :: r =>
    "\"" ++ escapeJson k ++ "\":" ++ stringifyJson v ++ ","
      ++ stringifyJsonMembers (p :: r)

end

/-- Translation of `getJSON`: `JSON.stringify` applied to the argument. -/
def getJSON (obj : JsonVal) : String := stringifyJson obj

/-- An object created by `fromJSON`: its own enumerable properties (the
copied keys) and the given prototype capability set, whose members are of
an arbitrary type `α` (they stand for the methods of `proto`). -/
structure JsObject (α : Type) where
  own : List (String × JsonVal)
  proto : List (String × α)

/-- Property lookup on a `fromJSON` object: own properties shadow the
prototype, prototype members are found when no own property matches. -/
def JsObject.get {α : Type} (o : JsObject α) (k : String) :
    Option (Sum JsonVal α) :=
  match o.own.find? (fun p => p.1 == k) with
  | some p => some (Sum.inl p.2)
  | none =>
    match o.proto.find? (fun p => p.1 == k) with
    | some p => some (Sum.inr p.2)
    | none => none

/-- The own enumerable keys of a parsed JSON value and their values, as
enumerated by `Object.keys` in `fromJSON`: the members of an object, the
indexed elements of an array, the indexed characters of a string, and
nothing for the other primitives. -/
def jsOwnProps : JsonVal → List (String × JsonVal)
  | .obj kvs => kvs
  | .arr xs => xs.enum.map (fun p => (toString p.1, p.2))
  | .str s => s.data.enum.map (fun p => (toString p.1, JsonVal.str p.2.toString))
  | _ => []

/-- Translation of `fromJSON`: parse the JSON string (failures propagate),
create a fresh object whose prototype is `proto`, and copy every own key
of the parsed value onto it. -/
def fromJSON {α : Type} (proto : List (String × α)) (json : String) :
    Except String (JsObject α) :=
  match JSONparse json with
  | .error e => .error e
  | .ok v => .ok { own := jsOwnProps v, proto := proto }

/-- Translation of the constructor function `Rectangle`: an object with the
two given fields.  JavaScript numbers are modelled as integers here; the
claims involve only integer rectangles. -/
structure Rectangle where
  width : Int
  height : Int

/-- Translation of the `getArea` method installed by `Rectangle`. -/
def Rectangle.getArea (r : Rectangle) : Int := r.width * r.height

/-- Claim C7: `fromJSON(proto, json)` parses `json`; when it is valid JSON
denoting a mapping, the result is a new object carrying every key of the
parsed mapping with its parsed value, while the members of `proto` stay
accessible through the prototype (own keys shadow them); when `json` is
not valid JSON the call fails with the parse error.  In particular
`fromJSON(protoWithCapability, '(radius:10)')` yields an object whose
`radius` is `10` and which still reaches the capability of the
prototype. -/
theorem c7_fromJSON {α : Type} (proto : List (String × α)) (json : String) :
    (∀ e, JSONparse json = .error e → fromJSON proto json = .error e)
      ∧ (∀ kvs, JSONparse json = .ok (.obj kvs)
        → fromJSON proto json = .ok ⟨kvs, proto⟩
          ∧ (∀ k v, kvs.find? (fun p => p.1 == k) = some (k, v)
            → JsObject.get ⟨kvs, proto⟩ k = some (Sum.inl v))
          ∧ (∀ k cap, kvs.find? (fun p => p.1 == k) = none
            → proto.find? (fun p => p.1 == k) = some (k, cap)
            → JsObject.get ⟨kvs, proto⟩ k = some (Sum.inr cap)))
      ∧ fromJSON [("getCap", (0 : Nat))] "\x7b\"radius\":10\x7d"
        = .ok ⟨[("radius", .num 10)], [("getCap", 0)]⟩
      ∧ JsObject.get
          (⟨[("radius", .num 10)], [("getCap", (0 : Nat))]⟩ : JsObject Nat)
          "radius" = some (Sum.inl (.num 10))
      ∧ JsObject.get
          (⟨[("radius", .num 10)], [("getCap", (0 : Nat))]⟩ : JsObject Nat)
          "getCap" = some (Sum.inr 0)
      ∧ fromJSON ([] : List (String × Nat)) "oops"
        = .error jsonParseErrorMsg := by
  refine ⟨?_, ?_, rfl, rfl, rfl, rfl⟩
  · intro e he
    unfold fromJSON
    rw [he]
  · intro kvs hk
    refine ⟨?_, ?_, ?_⟩
    · unfold fromJSON
      rw [hk]
      rfl
    · intro k v hf
      unfold JsObject.get
      dsimp only
      rw [hf]
    · intro k cap hf hp
      unfold JsObject.get
      dsimp only
      rw [hf, hp]

/-- Witness for C7 at a concrete input: parsing the mapping with `radius` set
to `10` against a one-capability prototype yields the expected object,
and a genuinely malformed string propagates the parse error. -/
theorem c7_fromJSON_witness :
    fromJSON [("getCap", (0 : Nat))] "\x7b\"radius\":10\x7d"
        = .ok ⟨[("radius", .num 10)], [("getCap", 0)]⟩
      ∧ fromJSON [("getCap", (0 : Nat))] "not json"
        = .error jsonParseErrorMsg :=
  ⟨((c7_fromJSON [("getCap", (0 : Nat))] "\x7b\"radius\":10\x7d").2.1
      [("radius", .num 10)] rfl).1,
   (c7_fromJSON [("getCap", (0 : Nat))] "not json").1 jsonParseErrorMsg rfl⟩

/-- Claim C8: `Rectangle(w, h)` carries `width = w`, `height = h`, and
`getArea()` returns `w * h`; in particular `Rectangle(10,20).getArea()`
is `200`. -/
theorem c8_rectangle (w h : Int) :
    (Rectangle.mk w h).width = w
      ∧ (Rectangle.mk w h).height = h
      ∧ (Rectangle.mk w h).getArea = w * h
      ∧ (Rectangle.mk 10 20).getArea = 200 :=
  ⟨rfl, rfl, rfl, by decide⟩

/-- Claim C9: `getJSON` is the standard JSON serialization of its argument,
and on the array `[1,2,3]` it returns exactly the string `'[1,2,3]'`. -/
theorem c9_getJSON :
    (∀ v, getJSON v = stringifyJson v)
      ∧ getJSON (.arr [.num 1, .num 2, .num 3]) = "[1,2,3]" :=
  ⟨fun _ => rfl, rfl⟩
